import Mathlib

/-!
Verification of the TKTrading-Dashboard enrichment/classification/sort pipeline.

This file gives a shallow embedding, in Lean 4, of the pure core of the
dashboard's JavaScript source (`assets/app.js` and its sibling snapshots):
JavaScript values are modelled by the inductive `JSVal` (finite numbers are
exact rationals; `NaN`, `Infinity` and `-Infinity` are explicit
constructors), fallible coercions return `Option`, and every function below
is a direct transliteration of the correspondingly-named JavaScript
function.  Theorems about the claims of the specification follow the
definitions.
-/

namespace TK

/-- A JavaScript value, as far as the dashboard's data pipeline observes it:
`null`, `undefined`, a finite number (modelled as an exact rational — the
source's float arithmetic on the values in scope is exact decimal
arithmetic), the non-finite numbers `NaN`/`Infinity`/`-Infinity`, or a
string. -/
inductive JSVal where
  | null
  | undefined
  | num (q : ℚ)
  | nan
  | inf
  | negInf
  | str (s : String)
deriving DecidableEq, Repr

/-- JavaScript truthiness test (`!x`), restricted to the values of `JSVal`:
`null`, `undefined`, `NaN`, `0` and the empty string are falsy. -/
def jsFalsy : JSVal → Bool
  | .null => true
  | .undefined => true
  | .num q => q = 0
  | .nan => true
  | .inf => false
  | .negInf => false
  | .str s => s = ""

/-- The nullish-coalescing operator `a ?? b`. -/
def jsCoalesce (a b : JSVal) : JSVal :=
  match a with
  | .null => b
  | .undefined => b
  | v => v

/-- The double-quote character, written via its code point. -/
def dquote : Char := Char.ofNat 34

/-- Decimal digit test used by the numeric parsers. -/
def isDig (c : Char) : Bool := '0' ≤ c && c ≤ '9'

/-- Value of a list of decimal digits. -/
def digitsVal (ds : List Char) : Nat :=
  ds.foldl (fun a c => a * 10 + (c.toNat - 48)) 0

/-- Smallest decimal shift `k` (bounded by the fuel) with `q * 10 ^ k`
integral. All numbers handled by the dashboard are finite decimals, for
which the bound is never reached. -/
def decShift : ℚ → Nat → Nat
  | _, 0 => 0
  | q, Nat.succ f => if q.den = 1 then 0 else decShift (q * 10) f + 1

/-- Decimal string of `n`, left-padded with zeros to `k` digits. -/
def natPad (n : Nat) (k : Nat) : String :=
  let s := toString n
  String.mk (List.replicate (k - s.length) '0') ++ s

/-- Shortest decimal rendering of a non-negative finite-decimal rational,
matching how JavaScript's template strings print the numbers appearing in
this code base (`40` ↦ "40", `1.30` ↦ "1.3", `0.05` ↦ "0.05"). -/
def jsNumStrNN (q : ℚ) : String :=
  let k := decShift q 64
  if k = 0 then toString q.num
  else
    let n := (q * (10 : ℚ) ^ k).num.natAbs
    toString (n / 10 ^ k) ++ ("." : String) ++ natPad (n % 10 ^ k) k

/-- `String(x)` for a finite number `x` (sign included). -/
def jsNumStr (q : ℚ) : String :=
  if q < 0 then ("-" : String) ++ jsNumStrNN (-q) else jsNumStrNN q

/-- `String(x)` coercion for the values of `JSVal`. -/
def jsToString : JSVal → String
  | .null => ("null" : String)
  | .undefined => ("undefined" : String)
  | .num q => jsNumStr q
  | .nan => ("NaN" : String)
  | .inf => ("Infinity" : String)
  | .negInf => ("-Infinity" : String)
  | .str s => s

/-- `String(x || "")`: the source's idiom for coercing a possibly missing
field to a string, with every falsy value collapsing to the empty string. -/
def jsStrOrEmpty (v : JSVal) : String :=
  if jsFalsy v then ("" : String) else jsToString v

/-- ASCII lower-casing, modelling `String.prototype.toLowerCase` on the
identifiers and queries the dashboard handles. -/
def jsToLower (s : String) : String := String.mk (s.data.map Char.toLower)

/-- `String.prototype.trim`, dropping leading and trailing whitespace
(space, tab, carriage return, newline — the whitespace the dashboard's
data can contain). -/
def jsTrim (s : String) : String :=
  String.mk (((s.data.dropWhile Char.isWhitespace).reverse.dropWhile Char.isWhitespace).reverse)

/-- Exponent-suffix evaluation for the `Number()` parser: requires a
non-empty all-digit exponent and scales the mantissa. -/
def jsParseExpDigits (m : ℚ) (neg : Bool) (ds : List Char) : Option ℚ :=
  if ds.isEmpty then none
  else if ds.all isDig then
    let e := digitsVal ds
    some (if neg then m / (10 : ℚ) ^ e else m * (10 : ℚ) ^ e)
  else none

/-- Optional exponent part (`e`/`E`, optional sign, digits) for the
`Number()` parser; anything else left over makes the parse fail (NaN). -/
def jsParseExp (m : ℚ) : List Char → Option ℚ
  | [] => some m
  | c :: rest =>
    if c = 'e' ∨ c = 'E' then
      match rest with
      | '+' :: ds => jsParseExpDigits m false ds
      | '-' :: ds => jsParseExpDigits m true ds
      | ds => jsParseExpDigits m false ds
    else none

/-- Mantissa value from integer-part and fraction-part digits. -/
def mantissa (ip fp : List Char) : ℚ :=
  (digitsVal ip : ℚ) + (digitsVal fp : ℚ) / (10 : ℚ) ^ fp.length

/-- Decimal core of the `Number()` string grammar: digits, optional
fraction (a lone '.' with no digits anywhere fails), optional exponent. -/
def jsParseNumCore (cs : List Char) : Option ℚ :=
  let p := cs.span isDig
  match p.2 with
  | '.' :: r2 =>
    let pf := r2.span isDig
    if p.1.isEmpty && pf.1.isEmpty then none
    else jsParseExp (mantissa p.1 pf.1) pf.2
  | r1 => if p.1.isEmpty then none else jsParseExp (mantissa p.1 []) r1

/-- The `Number(s)` coercion on an already-trimmed, non-empty string,
returning `some q` exactly for finite results: the decimal and
`Infinity` fragments of the ECMAScript `StringNumericLiteral` grammar
(the dashboard's data contains only decimal literals; `"Infinity"`
parses to a non-finite value and therefore yields `none` here, exactly
as `toNum`'s `Number.isFinite` check demands). -/
def jsParseNum (t : String) : Option ℚ :=
  let cs := t.data
  let body := match cs with
    | '+' :: r => r
    | '-' :: r => r
    | r => r
  if body = ("Infinity" : String).data then none
  else match cs with
    | '+' :: r => jsParseNumCore r
    | '-' :: r => (jsParseNumCore r).map (fun q => -q)
    | r => jsParseNumCore r

/-- `toNum` (assets/app.js lines 26-33): `null`/`undefined` stay `null`;
a number survives only if finite; a string is trimmed, the empty string
and `"nan"` (case-insensitive) become `null`, anything else goes through
`Number(...)` and survives only if finite. -/
def toNum : JSVal → Option ℚ
  | .null => none
  | .undefined => none
  | .num q => some q
  | .nan => none
  | .inf => none
  | .negInf => none
  | .str s =>
    let t := jsTrim s
    if t = "" ∨ jsToLower t = ("nan" : String) then none
    else jsParseNum t

/-- A raw stats object as attached to a record (`r.stats`): the fields the
pipeline reads, each a `JSVal`; a field that is absent from the underlying
object is represented by `.undefined`. -/
structure StatsObj where
  trades : JSVal
  score : JSVal
  mean_R : JSVal
  meanR : JSVal
  pf : JSVal
  profit_factor : JSVal
deriving DecidableEq, Repr

/-- The result of `normalizeStats`: every metric coerced by `toNum`. -/
structure NormStats where
  trades : Option ℚ
  score : Option ℚ
  meanR : Option ℚ
  pf : Option ℚ
deriving DecidableEq, Repr

/-- `normalizeStats` (assets/app.js lines 103-113): a falsy stats value
(modelled by `none`) yields `null`; otherwise each metric is coerced with
`toNum`, with `mean_R ?? meanR` and `pf ?? profit_factor` alias fallback. -/
def normalizeStats : Option StatsObj → Option NormStats
  | none => none
  | some s =>
    some { trades := toNum s.trades
           score := toNum s.score
           meanR := toNum (jsCoalesce s.mean_R s.meanR)
           pf := toNum (jsCoalesce s.pf s.profit_factor) }

/-- A candidate record, with the fields the core pipeline reads. The
remaining presentation fields of the JavaScript row object do not
participate in any claim and are omitted; object spread (`{...r}`)
corresponds to a structure update. -/
structure Row where
  «universe» : JSVal
  symbol : JSVal
  rr : JSVal
  buy : JSVal
  sl : JSVal
  tp : JSVal
  stats : Option StatsObj
deriving DecidableEq, Repr

/-- `computeRR` (assets/app.js lines 126-137): prefer an explicit numeric
`rr`; otherwise derive `(tp - buy) / (buy - sl)`, with `null` when any
input is missing or the risk `buy - sl` is not positive. -/
def computeRR (r : Row) : Option ℚ :=
  match toNum r.rr with
  | some rr => some rr
  | none =>
    match toNum r.buy, toNum r.sl, toNum r.tp with
    | some buy, some sl, some tp =>
      let risk := buy - sl
      if risk ≤ 0 then none else some ((tp - buy) / risk)
    | _, _, _ => none

/-- `MIN_TRADES` (assets/app.js line 381). -/
def MIN_TRADES : ℚ := 20

/-- `rankBucket` (assets/app.js lines 484-499): the quality-band
classifier.  Missing stats ⇒ "na"; a numeric trade count below
`MIN_TRADES` ⇒ "na" (the trade gate, checked before the score); missing
score ⇒ "na"; otherwise the fixed half-open score bands. -/
def rankBucket (r : Row) : String :=
  match normalizeStats r.stats with
  | none => ("na" : String)
  | some s =>
    if (match s.trades with | some t => decide (t < MIN_TRADES) | none => false) then ("na" : String)
    else
      match s.score with
      | none => ("na" : String)
      | some score =>
        if 3 ≤ score then ("top" : String)
        else if 3/2 ≤ score then ("green" : String)
        else if 1/2 ≤ score then ("yellow" : String)
        else ("red" : String)

/-- The dot class and label produced by `scoreBand` (part_003 lines
121-127), the score-only band used by that snapshot's rank dot. -/
structure BandInfo where
  cls : String
  label : String
deriving DecidableEq, Repr

/-- `scoreBand` (part_003 lines 121-127): band from the score alone. -/
def scoreBand : Option ℚ → BandInfo
  | none => ⟨("rank-na" : String), ("Kein Ranking" : String)⟩
  | some score =>
    if score < 1/2 then ⟨("rank-red" : String), ("Score < 0.5 (rot)" : String)⟩
    else if score < 3/2 then ⟨("rank-yellow" : String), ("0.5–1.5 (gelb)" : String)⟩
    else if score < 3 then ⟨("rank-green" : String), ("1.5–3.0 (grün)" : String)⟩
    else ⟨("rank-strong" : String), ("≥ 3.0 (sehr grün)" : String)⟩

/-- Correspondence between `rankBucket`'s bucket names and `scoreBand`'s
CSS classes (`"top"` is the strong band). -/
def bucketCls (b : String) : String :=
  if b = ("top" : String) then ("rank-strong" : String)
  else if b = ("green" : String) then ("rank-green" : String)
  else if b = ("yellow" : String) then ("rank-yellow" : String)
  else if b = ("red" : String) then ("rank-red" : String)
  else ("rank-na" : String)

/-- A gate preset: per-metric minimum thresholds (part_003 lines 147-153). -/
structure GatePreset where
  tradesMin : ℚ
  scoreMin : ℚ
  pfMin : ℚ
  meanRMin : ℚ
deriving DecidableEq, Repr

/-- `gatePreset` (part_003 lines 147-153): the three named presets; every
other name — including "off" and the empty selection — yields `null`. -/
def gatePreset (name : String) : Option GatePreset :=
  if name = ("conservative" : String) then some ⟨40, 3/2, 13/10, 1/10⟩
  else if name = ("balanced" : String) then some ⟨25, 1, 23/20, 1/20⟩
  else if name = ("aggressive" : String) then some ⟨20, 1/2, 1, 0⟩
  else none

/-- The result of `evalGate`: pass flag and ordered reason list. -/
structure GateResult where
  pass : Bool
  reasons : List String
deriving DecidableEq, Repr

/-- `evalGate` (part_003 lines 155-179): a null preset always passes with
no reasons; otherwise the four metrics are checked in the source's fixed
order (trades, score, PF, meanR), each contributing `"no <metric>"` when
missing and `"<metric> < <threshold>"` when present but below its minimum;
the record passes iff no reason accumulated. -/
def evalGate (r : Row) (preset : Option GatePreset) : GateResult :=
  match preset with
  | none => ⟨true, []⟩
  | some p =>
    let s := normalizeStats r.stats
    let trades := (s.map NormStats.trades).getD none
    let score := (s.map NormStats.score).getD none
    let pf := (s.map NormStats.pf).getD none
    let meanR := (s.map NormStats.meanR).getD none
    let r1 := match trades with
      | none => [("no trades" : String)]
      | some t => if t < p.tradesMin then [("trades < " : String) ++ jsNumStr p.tradesMin] else []
    let r2 := match score with
      | none => [("no score" : String)]
      | some v => if v < p.scoreMin then [("score < " : String) ++ jsNumStr p.scoreMin] else []
    let r3 := match pf with
      | none => [("no PF" : String)]
      | some v => if v < p.pfMin then [("PF < " : String) ++ jsNumStr p.pfMin] else []
    let r4 := match meanR with
      | none => [("no meanR" : String)]
      | some v => if v < p.meanRMin then [("meanR < " : String) ++ jsNumStr p.meanRMin] else []
    let reasons := r1 ++ r2 ++ r3 ++ r4
    ⟨reasons.isEmpty, reasons⟩

/-- The specification's description of a single gate check ("missing
metric → reason `no <metric>`; present but below its minimum → reason
`<metric> < <threshold>`"), written from the spec's words for the
refinement theorem of claim C2. -/
def specGateCheck (label : String) (v : Option ℚ) (minv : ℚ) : List String :=
  match v with
  | none => [("no " : String) ++ label]
  | some x => if x < minv then [label ++ (" < " : String) ++ jsNumStr minv] else []

/-- Substring test: `hay` starts with `needle`. -/
def startsWithL : List Char → List Char → Bool
  | [], _ => true
  | _ :: _, [] => false
  | a :: as, b :: bs => a = b && startsWithL as bs

/-- `String.prototype.includes`: `needle` occurs somewhere in `hay`. -/
def containsSubL (needle : List Char) : List Char → Bool
  | [] => startsWithL needle []
  | c :: rest => startsWithL needle (c :: rest) || containsSubL needle rest

/-- `hay.includes(needle)` on strings. -/
def strIncludes (hay needle : String) : Bool := containsSubL needle.data hay.data

/-- `applyFilter` (assets/app.js lines 45-52): a falsy (empty) query is the
identity; otherwise keep a record iff its (string-coerced, lower-cased)
symbol or universe contains the lower-cased query as a substring. -/
def applyFilter (rows : List Row) (q : String) : List Row :=
  if q = "" then rows
  else
    let s := jsToLower q
    rows.filter fun r =>
      strIncludes (jsToLower (jsStrOrEmpty r.symbol)) s ||
      strIncludes (jsToLower (jsStrOrEmpty r.«universe»)) s

/-- A resolved sort cell (`valueForSort`'s `{t, v}` tags): missing/empty/
NA-sentinel, numeric, or lower-cased string. -/
inductive SortCell where
  | na
  | num (q : ℚ)
  | str (s : String)
deriving DecidableEq, Repr

/-- Classification step of `valueForSort` (part_003 lines 184-194) applied
to the already-resolved raw cell value: `null`/`undefined`/`""`/`"–"` are
NA; a `toNum`-coercible value is numeric; anything else compares as a
lower-cased string. -/
def sortCellOf (raw : JSVal) : SortCell :=
  if raw = .null ∨ raw = .undefined ∨ raw = JSVal.str ("") ∨ raw = JSVal.str ("–") then .na
  else
    match toNum raw with
    | some n => .num n
    | none => .str (jsToLower (jsToString raw))

/-- `valueForSort` (part_003 lines 184-194), with the view configuration's
renderer table abstracted into `resolve` (the source's
`cfg.renderers?.[key] ? renderer(row) : row[key]`). -/
def valueForSort (resolve : α → String → JSVal) (row : α) (key : String) : SortCell :=
  sortCellOf (resolve row key)

/-- Code-point comparison of characters, -1/0/1. -/
def charCmp (a b : Char) : Int :=
  if a.toNat < b.toNat then -1 else if b.toNat < a.toNat then 1 else 0

/-- Lexicographic comparison of character lists. -/
def listCmp : List Char → List Char → Int
  | [], [] => 0
  | [], _ :: _ => -1
  | _ :: _, [] => 1
  | a :: as, b :: bs => let c := charCmp a b; if c ≠ 0 then c else listCmp as bs

/-- `a.localeCompare(b)`, modelled as code-point lexicographic comparison
(the dashboard's identifiers are plain ASCII). -/
def strCompare (a b : String) : Int := listCmp a.data b.data

/-- Sign of a rational: the sort only consumes the sign of the JavaScript
comparator's numeric difference `va.v - vb.v`. -/
def ratSign (q : ℚ) : Int := if q < 0 then -1 else if 0 < q then 1 else 0

/-- `String(v)` of a sort cell's payload, as the tie-break comparison does
for mixed kinds. -/
def cellStr : SortCell → String
  | .na => ("" : String)
  | .num q => jsNumStr q
  | .str s => s

/-- One tie-break comparison step (part_003 lines 225-241): NA/NA skips to
the next tie-break, NA sorts after any present value regardless of the
tie-break's direction, two numbers compare numerically, anything else
compares as strings; a decided comparison is scaled by the tie-break's own
direction. -/
def tieCmp (resolve : α → String → JSVal) : List (String × String) → α → α → Int
  | [], _, _ => 0
  | (k, d) :: rest, a, b =>
    let ta := valueForSort resolve a k
    let tb := valueForSort resolve b k
    match ta, tb with
    | .na, .na => tieCmp resolve rest a b
    | .na, _ => 1
    | _, .na => -1
    | ta, tb =>
      let m2 : Int := if d = ("asc" : String) then 1 else -1
      let c2 := match ta, tb with
        | .num x, .num y => ratSign (x - y)
        | ta, tb => strCompare (cellStr ta) (cellStr tb)
      if c2 ≠ 0 then c2 * m2 else tieCmp resolve rest a b

/-- The full row comparator of `sortRows` (part_003 lines 203-245):
NA always last regardless of direction, numeric before string on kind
mismatch (direction-independent), then numeric/string comparison scaled by
the requested direction, then the tie-break chain. -/
def cmpRows (resolve : α → String → JSVal) (key dir : String)
    (tie : List (String × String)) (a b : α) : Int :=
  let mul : Int := if dir = ("asc" : String) then 1 else -1
  let va := valueForSort resolve a key
  let vb := valueForSort resolve b key
  match va, vb with
  | .na, .na => 0
  | .na, _ => 1
  | _, .na => -1
  | .num _, .str _ => -1
  | .str _, .num _ => 1
  | .num x, .num y =>
    let c := ratSign (x - y)
    if c ≠ 0 then c * mul else tieCmp resolve tie a b
  | .str x, .str y =>
    let c := strCompare x y
    if c ≠ 0 then c * mul else tieCmp resolve tie a b

/-- Stable insertion of `x` (originally ahead of every element of the
list) into an already-processed suffix: `x` goes before the first element
it does not strictly exceed. -/
def insertSorted (cmp : α → α → Int) (x : α) : List α → List α
  | [] => [x]
  | y :: ys => if cmp x y ≤ 0 then x :: y :: ys else y :: insertSorted cmp x ys

/-- Stable sort by a three-way comparator, modelling the stable
`Array.prototype.sort` mandated by ECMAScript. -/
def stableSort (cmp : α → α → Int) : List α → List α
  | [] => []
  | x :: xs => insertSorted cmp x (stableSort cmp xs)

/-- The active sort: column key and direction string. -/
structure SortSt where
  key : String
  dir : String
deriving DecidableEq, Repr

/-- `sortRows` (part_003 lines 196-248): no active sort key (absent state
or falsy key) returns the rows unchanged; otherwise a stable sort by the
full comparator over a copy of the list. -/
def sortRows (rows : List α) (st : Option SortSt) (resolve : α → String → JSVal)
    (tie : List (String × String)) : List α :=
  match st with
  | none => rows
  | some s => if s.key = "" then rows else stableSort (cmpRows resolve s.key s.dir tie) rows

/-- A parsed CSV row: a JavaScript object as an insertion-ordered
association list (assignment to an existing key overwrites in place). -/
abbrev RowObj := List (String × JSVal)

/-- Property read `o[k]`: `undefined` when the key is absent. -/
def objGetD (o : RowObj) (k : String) : JSVal :=
  match o.find? (fun p => p.1 = k) with
  | some p => p.2
  | none => .undefined

/-- Property write `o[k] = v` (overwrites in place, appends if new). -/
def objSet (o : RowObj) (k : String) (v : JSVal) : RowObj :=
  if o.any (fun p => p.1 = k) then
    o.map (fun p => if p.1 = k then (k, v) else p)
  else o ++ [(k, v)]

/-- `stripBOM` (part_001 lines 58-60). -/
def stripBOM (cs : List Char) : List Char :=
  match cs with
  | c :: rest => if c.toNat = 0xfeff then rest else c :: rest
  | [] => []

/-- `text.split("\n")` after `\r` removal; JavaScript split keeps empty
segments (they are filtered afterwards, like the source's
`.filter(Boolean)`). -/
def splitNL : List Char → List (List Char)
  | [] => [[]]
  | c :: rest =>
    if c = '\n' then [] :: splitNL rest
    else
      match splitNL rest with
      | [] => [[c]]
      | l :: ls => (c :: l) :: ls

/-- Quoting state of the `splitCSVLine` scanner.  The source peeks one
character ahead on a quote inside a quoted field (`line[i + 1] === '"'`);
consuming one character per step, that lookahead is the explicit
`afterQ` state: a second quote right away is an escaped quote, anything
else ends the quoted run and is handled as unquoted input. -/
inductive QState where
  | outQ
  | inQ
  | afterQ
deriving DecidableEq, Repr

/-- Character loop of `splitCSVLine` (part_001 lines 62-95): quoted fields
may contain the delimiter, doubled quotes escape a quote, an unterminated
quote closes at end of line. -/
def splitCSVGo (st : QState) (cur : List Char) (acc : List (List Char)) :
    List Char → List (List Char)
  | [] => acc ++ [cur]
  | c :: rest =>
    match st with
    | .inQ =>
      if c = dquote then splitCSVGo .afterQ cur acc rest
      else splitCSVGo .inQ (cur ++ [c]) acc rest
    | .afterQ =>
      if c = dquote then splitCSVGo .inQ (cur ++ [dquote]) acc rest
      else if c = ',' then splitCSVGo .outQ [] (acc ++ [cur]) rest
      else splitCSVGo .outQ (cur ++ [c]) acc rest
    | .outQ =>
      if c = dquote then splitCSVGo .inQ cur acc rest
      else if c = ',' then splitCSVGo .outQ [] (acc ++ [cur]) rest
      else splitCSVGo .outQ (cur ++ [c]) acc rest

/-- `splitCSVLine` (part_001 lines 62-95). -/
def splitCSVLine (line : String) : List String :=
  (splitCSVGo .outQ [] [] line.data).map String.mk

/-- The cell-coercion regex of `parseCSV` (part_001 line 119):
`^[+-]?\d+(\.\d+)?(e[+-]?\d+)?$`, case-insensitive, evaluated to its
numeric value when it matches (on a match, `Number(raw)` is never NaN, so
the regex alone decides the coercion). -/
def csvRegexNum (raw : String) : Option ℚ :=
  let cs := raw.data
  let neg := match cs with
    | '-' :: _ => true
    | _ => false
  let body := match cs with
    | '+' :: r => r
    | '-' :: r => r
    | r => r
  let p := body.span isDig
  if p.1.isEmpty then none
  else
    let afterFrac : Option (List Char × List Char) := match p.2 with
      | '.' :: r2 =>
        let pf := r2.span isDig
        if pf.1.isEmpty then none else some (pf.1, pf.2)
      | r => some ([], r)
    match afterFrac with
    | none => none
    | some (fp, r3) =>
      let expPart : Option ℚ := match r3 with
        | [] => some 1
        | c :: r4 =>
          if c = 'e' ∨ c = 'E' then
            match r4 with
            | '+' :: ds => if ds.isEmpty ∨ ¬ ds.all isDig then none
                           else some ((10 : ℚ) ^ digitsVal ds)
            | '-' :: ds => if ds.isEmpty ∨ ¬ ds.all isDig then none
                           else some (1 / (10 : ℚ) ^ digitsVal ds)
            | ds => if ds.isEmpty ∨ ¬ ds.all isDig then none
                    else some ((10 : ℚ) ^ digitsVal ds)
          else none
      match expPart with
      | none => none
      | some e =>
        let m := mantissa p.1 fp * e
        some (if neg then -m else m)

/-- One row object of `parseCSV` (part_001 lines 106-121): for each named
header column, the trimmed cell (absent trailing cells read as `""`)
becomes `null` when empty, a number when the numeric regex matches, and
the trimmed string otherwise; unnamed header columns are skipped, extra
cells beyond the header are dropped. -/
def buildObjGo : List String → List String → RowObj → RowObj
  | [], _, obj => obj
  | k :: ks, ps, obj =>
    let raw := jsTrim (ps.headD ("" : String))
    let obj' :=
      if k = "" then obj
      else if raw = "" then objSet obj k .null
      else match csvRegexNum raw with
        | some n => objSet obj k (.num n)
        | none => objSet obj k (.str raw)
    buildObjGo ks ps.tail obj'

/-- `parseCSV` (part_001 lines 97-124): BOM strip, `\r` removal, newline
split, empty-line filter; the first line is the (trimmed) header, each
further line one row object. -/
def parseCSV (text : String) : List RowObj :=
  let lines := ((splitNL (stripBOM (text.data.filter (fun c => c ≠ '\r')))).map
    String.mk).filter (fun l => l ≠ "")
  match lines with
  | [] => []
  | h :: rest =>
    let header := (splitCSVLine h).map jsTrim
    (rest.map (fun line => splitCSVLine line)).filterMap fun parts =>
      if parts.isEmpty then none else some (buildObjGo header parts [])

/-- The stats lookup, a JavaScript `Map` as an insertion-ordered
association list. -/
abbrev StatsMap := List (String × StatsObj)

/-- `Map.get` (missing key reads as `undefined`, modelled by `none`). -/
def mapGet (m : StatsMap) (k : String) : Option StatsObj :=
  (m.find? (fun p => p.1 = k)).map (fun p => p.2)

/-- `Map.set`: an existing key keeps its position and takes the new
value (last-parsed-wins), a fresh key appends. -/
def mapSet (m : StatsMap) (k : String) (v : StatsObj) : StatsMap :=
  if m.any (fun p => p.1 = k) then
    m.map (fun p => if p.1 = k then (k, v) else p)
  else m ++ [(k, v)]

/-- The stats object inserted per ranking row (part_001 lines 151-156):
`{trades, score, mean_R, pf: profit_factor}` with `?? null` defaults; the
fields not written by this snapshot are absent (`undefined`). -/
def statsOfRow (r : RowObj) : StatsObj :=
  { trades := jsCoalesce (objGetD r ("trades" : String)) .null
    score := jsCoalesce (objGetD r ("score" : String)) .null
    mean_R := jsCoalesce (objGetD r ("mean_R" : String)) .null
    meanR := .undefined
    pf := jsCoalesce (objGetD r ("profit_factor" : String)) .null
    profit_factor := .undefined }

/-- The per-universe insertion loop of `buildStatsLookup` (part_001 lines
144-158): rows with an empty (string-coerced, trimmed) symbol are
skipped, the rest are inserted under `` `${u}__${sym}` `` counting the
insertions. -/
def insertRows (u : String) (m : StatsMap) (cnt : Nat) :
    List RowObj → StatsMap × Nat
  | [] => (m, cnt)
  | r :: rest =>
    let sym := jsTrim (jsStrOrEmpty (objGetD r ("symbol" : String)))
    if sym = "" then insertRows u m cnt rest
    else insertRows u (mapSet m (u ++ ("__" : String) ++ sym) (statsOfRow r)) (cnt + 1) rest

/-- The result triple of `buildStatsLookup`. -/
structure LookupResult where
  map : StatsMap
  missing : List String
  loaded : List String
deriving DecidableEq

/-- One iteration of `buildStatsLookup`'s universe loop: a successful
fetch parses the CSV and inserts its rows, a failed fetch only records
`` `${u} (${message})` `` in the missing list. -/
def processFetch (acc : LookupResult) (uf : String × Except String String) : LookupResult :=
  match uf.2 with
  | .ok txt =>
    let p := insertRows uf.1 acc.map 0 (parseCSV txt)
    { acc with map := p.1,
               loaded := acc.loaded ++ [uf.1 ++ (": " : String) ++ toString p.2] }
  | .error msg =>
    { acc with missing := acc.missing ++ [uf.1 ++ (" (" : String) ++ msg ++ (")" : String)] }

/-- `buildStatsLookup` (part_001 lines 128-166).  The `fetch` of each
per-universe ranking file is the only I/O; it is abstracted into the
`fetches` argument: per universe, either the fetched CSV text or the
thrown error's message.  A falsy rankings directory or an empty universe
list short-circuits to an empty result, as in the source. -/
def buildStatsLookup (rankingsDir : String)
    (fetches : List (String × Except String String)) : LookupResult :=
  if rankingsDir = "" ∨ fetches.isEmpty then ⟨[], [], []⟩
  else fetches.foldl processFetch ⟨[], [], []⟩

/-- `enrichWithStats` (part_001 lines 168-175): attach
`stats = map.get(`${u}__${sym}`) || null` to a copy of each record. -/
def enrichWithStats (rows : List Row) (statsMap : StatsMap) : List Row :=
  rows.map fun r =>
    let u := jsTrim (jsStrOrEmpty r.«universe»)
    let sym := jsTrim (jsStrOrEmpty r.symbol)
    { r with stats := mapGet statsMap (u ++ ("__" : String) ++ sym) }

/-- `enrichRowsWithStats` (part_002 lines 208-220): with an empty lookup
each record keeps its own stats (`r.stats ?? null`); otherwise the lookup
value, falling back to the record's existing stats, then to null. -/
def enrichRowsWithStats (rows : List Row) (lookup : StatsMap) : List Row :=
  if lookup.isEmpty then rows.map (fun r => { r with stats := r.stats })
  else
    rows.map fun r =>
      let u := jsTrim (jsStrOrEmpty r.«universe»)
      let sym := jsTrim (jsStrOrEmpty r.symbol)
      { r with stats := (mapGet lookup (u ++ ("__" : String) ++ sym)).orElse (fun _ => r.stats) }

/-- The dashboard state shared by the async loads (`main`'s closure in
assets/app.js lines 838-948): the currently selected descriptor path, the
loaded archive, and what the table displays. -/
structure DashState where
  selPath : String
  archive : Option String
  displayed : Option String
deriving DecidableEq, Repr

/-- A strategy selection replaces the current selection atomically. -/
def selectStrategy (p : String) (s : DashState) : DashState :=
  { s with selPath := p }

/-- Entry of `loadStrategy` (assets/app.js lines 875-921, part_003 lines
505-553) up to its first `await`: the selected path is captured once from
the select element, and the shared state is cleared.  The captured path is
all the load carries — the source attaches no generation token. -/
def loadBegin (s : DashState) : DashState × String :=
  ({ s with archive := none, displayed := none }, s.selPath)

/-- Resumption of `loadStrategy` after its fetches resolve (`env` maps a
descriptor path to the archive payload it serves): the fetched archive is
stored and rendered unconditionally — the source compares nothing against
the current selection before applying the result. -/
def loadComplete (env : String → String) (startedPath : String) (s : DashState) : DashState :=
  { s with archive := some (env startedPath), displayed := some (env startedPath) }

/-- The stale-load interleaving on the single-threaded event loop: a load
begins under the initial selection, the user selects `p2` before it
resolves, the second load begins and resolves first, and the first load
resolves last. -/
def staleRun (env : String → String) (p2 : String) (s0 : DashState) : DashState :=
  let b1 := loadBegin s0
  let s2 := selectStrategy p2 b1.1
  let b2 := loadBegin s2
  let s4 := loadComplete env b2.2 b2.1
  loadComplete env b1.2 s4

/-! ### Concrete sample records used by the theorems -/

/-- A record carrying only ranking stats (a trades and a score cell), as
the classifier reads it. -/
def statRow (trades score : JSVal) : Row :=
  { «universe» := .null
    symbol := .null
    rr := .null
    buy := .null
    sl := .null
    tp := .null
    stats := some { trades := trades
                    score := score
                    mean_R := .null
                    meanR := .undefined
                    pf := .null
                    profit_factor := .undefined } }

/-- The spec's end-to-end example record: buy 100, SL 90, TP 130, no
explicit rr. -/
def rrExampleRow : Row :=
  { «universe» := .str ("dax" : String)
    symbol := .str ("ABC" : String)
    rr := .null
    buy := .num 100
    sl := .num 90
    tp := .num 130
    stats := none }

/-- A stats object whose pf cell is the string "inf", as produced by
`buildStatsLookup` from a ranking CSV with `profit_factor = inf`. -/
def infPfStats : StatsObj :=
  { trades := .num 30
    score := .num 2
    mean_R := .num (1/10)
    meanR := .undefined
    pf := .str ("inf" : String)
    profit_factor := .undefined }

/-- A record whose stats fail the trades and score minimums of every
preset's thresholds but meet PF and meanR (trades 10, score 1, PF 2,
meanR 1/2). -/
def gateBothFailRow : Row :=
  { «universe» := .str ("dax" : String)
    symbol := .str ("ABC" : String)
    rr := .null
    buy := .null
    sl := .null
    tp := .null
    stats := some { trades := .num 10
                    score := .num 1
                    mean_R := .num (1/2)
                    meanR := .undefined
                    pf := .num 2
                    profit_factor := .undefined } }

/-- A record with no symbol and no universe at all. -/
def bareRow : Row :=
  { «universe» := .undefined
    symbol := .null
    rr := .null
    buy := .null
    sl := .null
    tp := .null
    stats := none }

/-- A record whose symbol is the number 12 and whose universe is the
number 0 — non-string identifier cells. -/
def numSymRow : Row :=
  { «universe» := .num 0
    symbol := .num 12
    rr := .null
    buy := .null
    sl := .null
    tp := .null
    stats := none }

/-- A two-strategy environment: the descriptor path "p1" serves archive
payload "A", every other path serves "B". -/
def staleEnv : String → String :=
  fun p => if p = ("p1" : String) then ("A" : String) else ("B" : String)

/-- The diagnostic string a failed universe fetch contributes:
`` `${u} (${message})` ``; a successful one contributes nothing. -/
def missingOf (uf : String × Except String String) : Option String :=
  match uf.2 with
  | .error m => some (uf.1 ++ (" (" : String) ++ m ++ (")" : String))
  | .ok _ => none

/-- The map contribution of one universe: a successful fetch inserts its
parsed rows, a failure leaves the map untouched. -/
def okStep (m : StatsMap) (uf : String × Except String String) : StatsMap :=
  match uf.2 with
  | .ok txt => (insertRows uf.1 m 0 (parseCSV txt)).1
  | .error _ => m

/-- Whether a universe's fetch succeeded. -/
def isOkFetch (uf : String × Except String String) : Bool :=
  match uf.2 with
  | .ok _ => true
  | .error _ => false

/-- The dax ranking CSV of the three-source example. -/
def csvDax : String :=
  ("symbol,trades,score,mean_R,profit_factor\nABC,30,2.1,0.12,1.4\nDEF,10,0.4,-0.05,inf\n" : String)

/-- The sp500 ranking CSV of the three-source example. -/
def csvSp : String := ("symbol,trades\nXYZ,7\n" : String)

/-- Three universe stats sources of which the middle one fails. -/
def threeFetches : List (String × Except String String) :=
  [(("dax" : String), .ok csvDax),
   (("mdax" : String), .error ("HTTP 404 for x" : String)),
   (("sp500" : String), .ok csvSp)]

/-- Resolver for the spec's `{score: ...}` example records: the score
column of a bare record holding only an optional score. -/
def scoreResolve : Option ℚ → String → JSVal :=
  fun v _ =>
    match v with
    | none => JSVal.null
    | some q => JSVal.num q

/-- Resolver reading the first component (the compared score) of a pair;
the second component only tells the two records apart. -/
def pairResolve : ℚ × ℚ → String → JSVal := fun p _ => JSVal.num p.1

/-! ### Classifier lemmas (claim C1) -/

theorem rankBucket_stats_none (r : Row) (h : r.stats = none) :
    rankBucket r = ("na" : String) := by
  simp [rankBucket, h, normalizeStats]

theorem rankBucket_score_none (r : Row) (s : NormStats)
    (hs : normalizeStats r.stats = some s) (hsc : s.score = none) :
    rankBucket r = ("na" : String) := by
  simp only [rankBucket, hs]
  split
  · rfl
  · rw [hsc]

theorem rankBucket_trade_gate (r : Row) (s : NormStats) (t : ℚ)
    (hs : normalizeStats r.stats = some s) (ht : s.trades = some t) (hlt : t < 20) :
    rankBucket r = ("na" : String) := by
  simp [rankBucket, hs, ht, MIN_TRADES, hlt]

theorem rankBucket_banded (r : Row) (s : NormStats) (sc : ℚ)
    (hs : normalizeStats r.stats = some s) (hgate : ∀ t, s.trades = some t → 20 ≤ t)
    (hsc : s.score = some sc) :
    rankBucket r = (if 3 ≤ sc then ("top" : String)
      else if 3/2 ≤ sc then ("green" : String)
      else if 1/2 ≤ sc then ("yellow" : String)
      else ("red" : String)) := by
  cases htr : s.trades with
  | none => simp [rankBucket, hs, htr, hsc]
  | some t =>
    have h20 := hgate t htr
    simp [rankBucket, hs, htr, hsc, MIN_TRADES, not_lt.mpr h20]

theorem scoreBand_matches_rankBucket (r : Row) (s : NormStats) (sc : ℚ)
    (hs : normalizeStats r.stats = some s) (hgate : ∀ t, s.trades = some t → 20 ≤ t)
    (hsc : s.score = some sc) :
    (scoreBand s.score).cls = bucketCls (rankBucket r) := by
  rw [rankBucket_banded r s sc hs hgate hsc, hsc]
  by_cases h3 : 3 ≤ sc
  · rw [if_pos h3]
    have n1 : ¬ sc < 1/2 := by linarith
    have n2 : ¬ sc < 3/2 := by linarith
    have n3 : ¬ sc < 3 := by linarith
    simp only [scoreBand, if_neg n1, if_neg n2, if_neg n3]
    with_unfolding_all rfl
  · rw [if_neg h3]
    by_cases h2 : 3/2 ≤ sc
    · rw [if_pos h2]
      have n1 : ¬ sc < 1/2 := by linarith
      have n2 : ¬ sc < 3/2 := by linarith
      have n3 : sc < 3 := lt_of_not_le h3
      simp only [scoreBand, if_neg n1, if_neg n2, if_pos n3]
      with_unfolding_all rfl
    · rw [if_neg h2]
      by_cases h1 : 1/2 ≤ sc
      · rw [if_pos h1]
        have n1 : ¬ sc < 1/2 := by linarith
        have n2 : sc < 3/2 := lt_of_not_le h2
        simp only [scoreBand, if_neg n1, if_pos n2]
        with_unfolding_all rfl
      · rw [if_neg h1]
        have n1 : sc < 1/2 := lt_of_not_le h1
        simp only [scoreBand, if_pos n1]
        with_unfolding_all rfl

/-- C1: the quality-band classifier is a pure function of trades and
score: NA when stats or score is missing; NA whenever a numeric trade
count is below 20, unconditionally overriding the score (trades 5 with
score 10 is "na", not the strong band); otherwise the half-open bands
score < 0.5 red, < 1.5 yellow, < 3 green, ≥ 3 strong ("top"), checked at
the boundary scores 0.49/0.5/1.49/1.5/2.99/3.0 for trades ≥ 20; and the
score-only `scoreBand` dot classes agree with `rankBucket` on every
record that passes the trade gate. -/
theorem C1_quality_band_classifier :
    (∀ r : Row, r.stats = none → rankBucket r = ("na" : String)) ∧
    (∀ r s, normalizeStats r.stats = some s → s.score = none →
      rankBucket r = ("na" : String)) ∧
    (∀ r s t, normalizeStats r.stats = some s → s.trades = some t → t < 20 →
      rankBucket r = ("na" : String)) ∧
    (∀ r s sc, normalizeStats r.stats = some s → (∀ t, s.trades = some t → 20 ≤ t) →
      s.score = some sc →
      rankBucket r = (if 3 ≤ sc then ("top" : String)
        else if 3/2 ≤ sc then ("green" : String)
        else if 1/2 ≤ sc then ("yellow" : String)
        else ("red" : String))) ∧
    (∀ r s sc, normalizeStats r.stats = some s → (∀ t, s.trades = some t → 20 ≤ t) →
      s.score = some sc → (scoreBand s.score).cls = bucketCls (rankBucket r)) ∧
    (rankBucket (statRow (.num 5) (.num 10)) = ("na" : String) ∧
     rankBucket (statRow (.num 30) (.num (49/100))) = ("red" : String) ∧
     rankBucket (statRow (.num 30) (.num (1/2))) = ("yellow" : String) ∧
     rankBucket (statRow (.num 30) (.num (149/100))) = ("yellow" : String) ∧
     rankBucket (statRow (.num 30) (.num (3/2))) = ("green" : String) ∧
     rankBucket (statRow (.num 30) (.num (299/100))) = ("green" : String) ∧
     rankBucket (statRow (.num 30) (.num 3)) = ("top" : String)) :=
  ⟨rankBucket_stats_none, rankBucket_score_none, rankBucket_trade_gate,
   rankBucket_banded,
   fun r s sc hs hg hsc => scoreBand_matches_rankBucket r s sc hs hg hsc,
   by with_unfolding_all decide, by with_unfolding_all decide, by with_unfolding_all decide,
   by with_unfolding_all decide, by with_unfolding_all decide, by with_unfolding_all decide,
   by with_unfolding_all decide⟩

theorem C1_quality_band_classifier_witness :
    rankBucket (statRow (.num 5) (.num 10)) = ("na" : String) ∧
    rankBucket (statRow (.num 30) (.num (149/100))) = ("yellow" : String) :=
  ⟨C1_quality_band_classifier.2.2.1 (statRow (.num 5) (.num 10))
      ⟨some 5, some 10, none, none⟩ 5 (by with_unfolding_all decide) rfl
      (by with_unfolding_all decide),
   (C1_quality_band_classifier.2.2.2.1 (statRow (.num 30) (.num (149/100)))
      ⟨some 30, some (149/100), none, none⟩ (149/100) (by with_unfolding_all decide)
      (fun t ht => by injection ht with h; rw [← h]; with_unfolding_all decide) rfl).trans
      (by with_unfolding_all decide)⟩

/-! ### Risk-reward derivation (claim C4) -/

/-- C4: with no explicit numeric `rr`, the derived risk-reward ratio is
`(tp - buy) / (buy - sl)`, and it is null exactly when one of buy/sl/tp is
missing or the risk `buy - sl` is not positive; buy 100 / sl 90 / tp 130
derives rr = 3. -/
theorem C4_rr_derivation :
    (∀ (r : Row) (b s t : ℚ), toNum r.rr = none → toNum r.buy = some b →
      toNum r.sl = some s → toNum r.tp = some t →
      computeRR r = (if b - s ≤ 0 then none else some ((t - b) / (b - s)))) ∧
    (∀ r : Row, toNum r.rr = none →
      (toNum r.buy = none ∨ toNum r.sl = none ∨ toNum r.tp = none) →
      computeRR r = none) ∧
    computeRR rrExampleRow = some 3 := by
  refine ⟨?_, ?_, by with_unfolding_all decide⟩
  · intro r b s t hrr hb hs ht
    simp [computeRR, hrr, hb, hs, ht]
  · intro r hrr h
    rcases h with h | h | h <;> simp [computeRR, hrr, h]

theorem C4_rr_derivation_witness :
    computeRR rrExampleRow = (if (100 : ℚ) - 90 ≤ 0 then none else some (((130 : ℚ) - 100) / (100 - 90))) :=
  C4_rr_derivation.1 rrExampleRow 100 90 130 (by with_unfolding_all decide)
    (by with_unfolding_all decide) (by with_unfolding_all decide) (by with_unfolding_all decide)

/-! ### Profit-factor "inf" handling (claims C5, C9) -/

/-- C5 counterexample: normalizing a stats object whose pf is the string
"inf" yields a record whose pf is null (`none`) — `toNum` rejects the
non-numeric string — refuting the claim that pf is carried through as a
positive-infinity sentinel and never coerced to null. -/
theorem C5_pf_inf_counterexample :
    (normalizeStats (some infPfStats)).map NormStats.pf = some none := by
  with_unfolding_all decide

/-- C5 (amended): stats normalization coerces a pf of `"inf"` — and any
non-finite pf number — to null: `toNum` keeps only finite numeric values,
so no positive-infinity sentinel survives `normalizeStats`. -/
theorem C5_pf_inf_amended :
    ∀ s : StatsObj,
      (jsCoalesce s.pf s.profit_factor = JSVal.str ("inf" : String) ∨
       jsCoalesce s.pf s.profit_factor = .inf ∨
       jsCoalesce s.pf s.profit_factor = .negInf ∨
       jsCoalesce s.pf s.profit_factor = .nan) →
      ∃ ns, normalizeStats (some s) = some ns ∧ ns.pf = none := by
  intro s h
  refine ⟨_, rfl, ?_⟩
  show toNum (jsCoalesce s.pf s.profit_factor) = none
  rcases h with h | h | h | h <;> rw [h]
  · with_unfolding_all decide
  · rfl
  · rfl
  · rfl

theorem C5_pf_inf_amended_witness :
    ∃ ns, normalizeStats (some infPfStats) = some ns ∧ ns.pf = none :=
  C5_pf_inf_amended infPfStats (Or.inl rfl)

/-- C9 counterexample: a comma-as-decimal-separator cell is not coerced to
a number anywhere: `toNum` maps the string "1,5" to null (`Number("1,5")`
is NaN), and `parseCSV` leaves a quoted cell `"1,5"` as the literal
string — the claim's expected value 1.5 is produced by neither. -/
theorem C9_comma_decimal_counterexample :
    toNum (JSVal.str ("1,5" : String)) = none ∧
    parseCSV ("x\n" ++ String.mk [dquote] ++ ("1,5" : String) ++ String.mk [dquote]) =
      [[(("x" : String), JSVal.str ("1,5" : String))]] := by
  constructor
  · with_unfolding_all decide
  · with_unfolding_all decide

/-- C9 (amended): numeric cells are dot-decimal only — "1,5" is rejected
by both the `toNum` coercion (null) and the CSV cell regex (kept as a
string), while the dot-decimal "1.5" parses to 3/2 in both. -/
theorem C9_comma_decimal_amended :
    toNum (JSVal.str ("1,5" : String)) = none ∧
    csvRegexNum ("1,5" : String) = none ∧
    toNum (JSVal.str ("1.5" : String)) = some (3/2) ∧
    csvRegexNum ("1.5" : String) = some (3/2) := by
  refine ⟨by with_unfolding_all decide, by with_unfolding_all decide,
    by with_unfolding_all decide, by with_unfolding_all decide⟩

/-! ### Gate evaluation (claim C2) -/

/-- C2: gate evaluation fails open — a null preset (the "off" selection,
an absent control, or any unrecognized preset name) passes every record
with an empty reasons list; a recognized preset checks the four metrics in
the fixed order trades, score, PF, meanR, reporting `"no <metric>"` for a
missing metric and `"<metric> < <threshold>"` for one below its minimum
(the refinement to `specGateCheck`); the record passes iff the reasons
list is empty; and a record failing both the trades and the score minimum
(with PF and meanR fine) reports exactly
`["trades < X", "score < Y"]` in that order. -/
theorem C2_gate_evaluation :
    (∀ r : Row, evalGate r none = ⟨true, []⟩) ∧
    (gatePreset ("off" : String) = none) ∧
    (∀ (r : Row) (name : String), name ≠ ("conservative" : String) →
      name ≠ ("balanced" : String) → name ≠ ("aggressive" : String) →
      gatePreset name = none ∧ evalGate r (gatePreset name) = ⟨true, []⟩) ∧
    (∀ (r : Row) (p : GatePreset),
      (evalGate r (some p)).pass = true ↔ (evalGate r (some p)).reasons = []) ∧
    (∀ (r : Row) (p : GatePreset),
      (evalGate r (some p)).reasons =
        specGateCheck ("trades" : String)
          (((normalizeStats r.stats).map NormStats.trades).getD none) p.tradesMin ++
        specGateCheck ("score" : String)
          (((normalizeStats r.stats).map NormStats.score).getD none) p.scoreMin ++
        specGateCheck ("PF" : String)
          (((normalizeStats r.stats).map NormStats.pf).getD none) p.pfMin ++
        specGateCheck ("meanR" : String)
          (((normalizeStats r.stats).map NormStats.meanR).getD none) p.meanRMin) ∧
    (∀ (r : Row) (s : NormStats) (p : GatePreset) (t sc pfv mr : ℚ),
      normalizeStats r.stats = some s →
      s.trades = some t → t < p.tradesMin →
      s.score = some sc → sc < p.scoreMin →
      s.pf = some pfv → p.pfMin ≤ pfv →
      s.meanR = some mr → p.meanRMin ≤ mr →
      (evalGate r (some p)).reasons =
        [("trades < " : String) ++ jsNumStr p.tradesMin,
         ("score < " : String) ++ jsNumStr p.scoreMin]) := by
  refine ⟨fun _ => rfl, rfl, ?_, ?_, ?_, ?_⟩
  · intro r name h1 h2 h3
    have hp : gatePreset name = none := by simp [gatePreset, h1, h2, h3]
    exact ⟨hp, by rw [hp]; rfl⟩
  · intro r p
    simp [evalGate]
  · intro r p
    cases h : normalizeStats r.stats with
    | none => simp only [evalGate, h]; with_unfolding_all rfl
    | some s =>
      obtain ⟨t, sc, mr, pfv⟩ := s
      cases t <;> cases sc <;> cases mr <;> cases pfv <;>
        simp only [evalGate, h] <;> with_unfolding_all rfl
  · intro r s p t sc pfv mr hs ht hlt hsc hslt hpf hpge hmr hmge
    simp [evalGate, hs, ht, hsc, hpf, hmr, hlt, hslt, not_lt.mpr hpge, not_lt.mpr hmge]

theorem C2_gate_evaluation_witness :
    (evalGate gateBothFailRow (some ⟨40, 3/2, 13/10, 1/10⟩)).reasons =
      [("trades < 40" : String), ("score < 1.5" : String)] :=
  (C2_gate_evaluation.2.2.2.2.2 gateBothFailRow
      ⟨some 10, some 1, some (1/2), some 2⟩ ⟨40, 3/2, 13/10, 1/10⟩ 10 1 2 (1/2)
      (by with_unfolding_all decide) rfl (by with_unfolding_all decide)
      rfl (by with_unfolding_all decide) rfl (by with_unfolding_all decide)
      rfl (by with_unfolding_all decide)).trans (by with_unfolding_all decide)

/-! ### Substring filter (claim C10) -/

theorem containsSubL_nil_of_ne {n : List Char} (h : n ≠ []) : containsSubL n [] = false := by
  cases n with
  | nil => exact absurd rfl h
  | cons c cs => rfl

theorem jsToLower_data (q : String) : (jsToLower q).data = q.data.map Char.toLower := rfl

theorem ne_empty_data {q : String} (h : q ≠ ("" : String)) : q.data ≠ [] := by
  intro hd
  apply h
  cases q with
  | mk l => cases hd; rfl

/-- C10: the substring filter is total over malformed records — the empty
query is the identity; a record whose symbol and universe are both
missing (null or undefined, both coerced to the empty string) is excluded
by every non-empty query; and non-string cells are string-coerced rather
than rejected (a numeric symbol 12 is matched by the query "12"). -/
theorem C10_filter_totality :
    (∀ rows : List Row, applyFilter rows ("" : String) = rows) ∧
    (∀ (rows : List Row) (q : String) (r : Row), q ≠ ("" : String) →
      (r.symbol = .null ∨ r.symbol = .undefined) →
      (r.«universe» = .null ∨ r.«universe» = .undefined) →
      r ∉ applyFilter rows q) ∧
    applyFilter [numSymRow] ("12" : String) = [numSymRow] := by
  refine ⟨fun rows => by simp [applyFilter], ?_, by with_unfolding_all decide⟩
  intro rows q r hq hsym huni hmem
  unfold applyFilter at hmem
  rw [if_neg hq] at hmem
  have hpred := (List.mem_filter.mp hmem).2
  have hs0 : jsStrOrEmpty r.symbol = ("" : String) := by
    rcases hsym with h | h <;> rw [h] <;> rfl
  have hu0 : jsStrOrEmpty r.«universe» = ("" : String) := by
    rcases huni with h | h <;> rw [h] <;> rfl
  rw [hs0, hu0] at hpred
  have hne : (jsToLower q).data ≠ [] := by
    rw [jsToLower_data]
    intro hmap
    exact ne_empty_data hq (List.map_eq_nil_iff.mp hmap)
  have hinc : strIncludes (jsToLower ("" : String)) (jsToLower q) = false := by
    show containsSubL (jsToLower q).data (jsToLower ("" : String)).data = false
    exact containsSubL_nil_of_ne hne
  rw [hinc] at hpred
  simp at hpred

theorem C10_filter_totality_witness : bareRow ∉ applyFilter [bareRow] ("abc" : String) :=
  C10_filter_totality.2.1 [bareRow] ("abc" : String) bareRow
    (by with_unfolding_all decide) (Or.inl rfl) (Or.inr rfl)

/-! ### Enrichment idempotence (claim C7) -/

/-- C7: enrichment is idempotent — applying `enrichWithStats` (part_001)
or `enrichRowsWithStats` (part_002) a second time with the same lookup
changes nothing.  Both are `List.map` over pure per-record functions of
the immutable inputs, so they are deterministic and leave their input
unchanged by construction in this embedding. -/
theorem C7_enrich_idempotent :
    (∀ (rows : List Row) (m : StatsMap),
      enrichWithStats (enrichWithStats rows m) m = enrichWithStats rows m) ∧
    (∀ (rows : List Row) (m : StatsMap),
      enrichRowsWithStats (enrichRowsWithStats rows m) m = enrichRowsWithStats rows m) := by
  constructor
  · intro rows m
    unfold enrichWithStats
    rw [List.map_map]
    rfl
  · intro rows m
    unfold enrichRowsWithStats
    by_cases hm : m.isEmpty
    · simp only [hm, if_pos]
      rw [List.map_map]
      rfl
    · simp only [hm, if_neg, Bool.false_eq_true, not_false_iff]
      rw [List.map_map]
      apply List.map_congr_left
      intro r _
      show (fun r : Row => { r with stats := (mapGet m (jsTrim (jsStrOrEmpty r.«universe») ++
          ("__" : String) ++ jsTrim (jsStrOrEmpty r.symbol))).orElse (fun _ => r.stats) })
        ({ r with stats := (mapGet m (jsTrim (jsStrOrEmpty r.«universe») ++ ("__" : String) ++
          jsTrim (jsStrOrEmpty r.symbol))).orElse (fun _ => r.stats) }) = _
      cases hg : mapGet m (jsTrim (jsStrOrEmpty r.«universe») ++ ("__" : String) ++
          jsTrim (jsStrOrEmpty r.symbol)) with
      | none => simp [hg, Option.orElse]
      | some v => simp [hg, Option.orElse]

/-! ### Stale async loads (claim C8) -/

/-- C8 counterexample: no generation token exists — `loadStrategy`
captures only the selected path and applies its fetched result
unconditionally when it resumes.  In the event-loop interleaving where a
load of "p1" is overtaken by a selection of "p2" whose own load resolves
first, the stale "p1" result is applied last: the display ends on payload
"A" although the current selection "p2" serves "B" — the stale load
clobbers the newer selection instead of being discarded. -/
theorem C8_stale_load_counterexample :
    (staleRun staleEnv ("p2" : String) ⟨("p1" : String), none, none⟩).selPath = ("p2" : String) ∧
    (staleRun staleEnv ("p2" : String) ⟨("p1" : String), none, none⟩).displayed =
      some ("A" : String) ∧
    staleEnv ("p2" : String) = ("B" : String) := by
  refine ⟨rfl, by with_unfolding_all decide, by with_unfolding_all decide⟩

/-- C8 (amended): strategy loads carry no generation token and are not
compared against the current selection on completion; in the stale
interleaving the last-resolving load always wins, so the display ends on
the payload of the load begun under the initial selection even though the
selection has since moved on. -/
theorem C8_no_generation_token_amended :
    ∀ (env : String → String) (p2 : String) (s0 : DashState),
      (staleRun env p2 s0).selPath = p2 ∧
      (staleRun env p2 s0).displayed = some (env s0.selPath) :=
  fun _ _ _ => ⟨rfl, rfl⟩

/-! ### Partial join failure (claim C6) -/

theorem foldl_missing (fs : List (String × Except String String)) :
    ∀ acc : LookupResult,
      (fs.foldl processFetch acc).missing = acc.missing ++ fs.filterMap missingOf := by
  induction fs with
  | nil => intro acc; simp
  | cons uf rest ih =>
    intro acc
    obtain ⟨u, r⟩ := uf
    cases r with
    | ok txt => simp [List.foldl_cons, ih, processFetch, missingOf]
    | error m => simp [List.foldl_cons, ih, processFetch, missingOf]

theorem foldl_map (fs : List (String × Except String String)) :
    ∀ acc : LookupResult,
      (fs.foldl processFetch acc).map = fs.foldl okStep acc.map := by
  induction fs with
  | nil => intro acc; rfl
  | cons uf rest ih =>
    intro acc
    obtain ⟨u, r⟩ := uf
    cases r with
    | ok txt => simp [List.foldl_cons, ih, processFetch, okStep]
    | error m => simp [List.foldl_cons, ih, processFetch, okStep]

theorem okStep_filter (fs : List (String × Except String String)) :
    ∀ m : StatsMap, fs.foldl okStep m = (fs.filter isOkFetch).foldl okStep m := by
  induction fs with
  | nil => intro m; rfl
  | cons uf rest ih =>
    intro m
    obtain ⟨u, r⟩ := uf
    cases r with
    | ok txt => simp [List.foldl_cons, List.filter_cons, isOkFetch, ih, okStep]
    | error e => simp [List.foldl_cons, List.filter_cons, isOkFetch, ih, okStep]

/-- C6: join-index construction collects errors instead of failing as a
whole: the missing-sources diagnostics name exactly the failed universes,
in order; the built map is exactly the map built from the successful
fetches alone; and on the concrete three-source example with the middle
source failing, the index holds the entries of the two loaded universes
and the diagnostics name only the failed one. -/
theorem C6_partial_join_failure :
    (∀ (d : String) (fs : List (String × Except String String)), d ≠ ("" : String) →
      (buildStatsLookup d fs).missing = fs.filterMap missingOf) ∧
    (∀ (d : String) (fs : List (String × Except String String)), d ≠ ("" : String) →
      (buildStatsLookup d fs).map = (buildStatsLookup d (fs.filter isOkFetch)).map) ∧
    buildStatsLookup ("data/rankings" : String) threeFetches =
      ⟨[(("dax__ABC" : String),
          { trades := .num 30, score := .num (21/10), mean_R := .num (3/25),
            meanR := .undefined, pf := .num (7/5), profit_factor := .undefined }),
        (("dax__DEF" : String),
          { trades := .num 10, score := .num (2/5), mean_R := .num (-1/20),
            meanR := .undefined, pf := .str ("inf" : String), profit_factor := .undefined }),
        (("sp500__XYZ" : String),
          { trades := .num 7, score := .null, mean_R := .null,
            meanR := .undefined, pf := .null, profit_factor := .undefined })],
       [("mdax (HTTP 404 for x)" : String)],
       [("dax: 2" : String), ("sp500: 1" : String)]⟩ := by
  refine ⟨?_, ?_, by with_unfolding_all decide⟩
  · intro d fs hd
    unfold buildStatsLookup
    cases fs with
    | nil => simp
    | cons uf rest =>
      rw [if_neg (by simp [hd])]
      rw [foldl_missing]
      simp
  · intro d fs hd
    unfold buildStatsLookup
    cases fs with
    | nil => simp
    | cons uf rest =>
      rw [if_neg (by simp [hd])]
      rw [foldl_map, okStep_filter]
      cases hf : (uf :: rest).filter isOkFetch with
      | nil => simp
      | cons v vs =>
        rw [if_neg (by simp [hd, hf])]
        rw [foldl_map]

theorem C6_partial_join_failure_witness :
    (buildStatsLookup ("data/rankings" : String) threeFetches).missing =
      [("mdax (HTTP 404 for x)" : String)] :=
  (C6_partial_join_failure.1 ("data/rankings" : String) threeFetches
    (by with_unfolding_all decide)).trans (by with_unfolding_all decide)

/-! ### Sorting: NA-last and stability (claim C3) -/

theorem cmpRows_na_left {α : Type} (resolve : α → String → JSVal) (key dir : String)
    (tie : List (String × String)) (a b : α)
    (ha : valueForSort resolve a key = .na) (hb : valueForSort resolve b key ≠ .na) :
    cmpRows resolve key dir tie a b = 1 := by
  cases hvb : valueForSort resolve b key with
  | na => exact absurd hvb hb
  | num q => simp [cmpRows, ha, hvb]
  | str s => simp [cmpRows, ha, hvb]

theorem cmpRows_na_right {α : Type} (resolve : α → String → JSVal) (key dir : String)
    (tie : List (String × String)) (a b : α)
    (ha : valueForSort resolve a key ≠ .na) (hb : valueForSort resolve b key = .na) :
    cmpRows resolve key dir tie a b = -1 := by
  cases hva : valueForSort resolve a key with
  | na => exact absurd hva ha
  | num q => simp [cmpRows, hva, hb]
  | str s => simp [cmpRows, hva, hb]

theorem cmpRows_na_both {α : Type} (resolve : α → String → JSVal) (key dir : String)
    (tie : List (String × String)) (a b : α)
    (ha : valueForSort resolve a key = .na) (hb : valueForSort resolve b key = .na) :
    cmpRows resolve key dir tie a b = 0 := by
  simp [cmpRows, ha, hb]

theorem insertSorted_sep {α : Type} (cmp : α → α → Int) (P : α → Prop) (x : α)
    (h1 : ∀ a b, P a → ¬ P b → 0 < cmp a b)
    (h2 : ∀ a b, P a → P b → cmp a b ≤ 0)
    (h3 : ∀ a b, ¬ P a → P b → cmp a b ≤ 0) :
    ∀ l1 l2, (∀ y ∈ l1, ¬ P y) → (∀ y ∈ l2, P y) →
      ∃ m1 m2, insertSorted cmp x (l1 ++ l2) = m1 ++ m2 ∧
        (∀ y ∈ m1, ¬ P y) ∧ (∀ y ∈ m2, P y) := by
  intro l1
  induction l1 with
  | nil =>
    intro l2 _ hl2
    by_cases hx : P x
    · cases l2 with
      | nil => exact ⟨[], [x], rfl, by simp, by simp [hx]⟩
      | cons y ys =>
        refine ⟨[], x :: y :: ys, ?_, by simp, ?_⟩
        · show insertSorted cmp x (y :: ys) = x :: y :: ys
          rw [insertSorted, if_pos (h2 x y hx (hl2 y (by simp)))]
        · intro z hz
          rcases List.mem_cons.mp hz with h | h
          · rw [h]; exact hx
          · exact hl2 z h
    · cases l2 with
      | nil => exact ⟨[x], [], rfl, by simp [hx], by simp⟩
      | cons y ys =>
        refine ⟨[x], y :: ys, ?_, by simp [hx], hl2⟩
        show insertSorted cmp x (y :: ys) = x :: y :: ys
        rw [insertSorted, if_pos (h3 x y hx (hl2 y (by simp)))]
  | cons z l1' ih =>
    intro l2 hl1 hl2
    have hz : ¬ P z := hl1 z (by simp)
    by_cases hc : cmp x z ≤ 0
    · have hx : ¬ P x := fun hx => absurd (h1 x z hx hz) (not_lt.mpr hc)
      refine ⟨x :: z :: l1', l2, ?_, ?_, hl2⟩
      · show insertSorted cmp x (z :: (l1' ++ l2)) = (x :: z :: l1') ++ l2
        rw [insertSorted, if_pos hc]
        rfl
      · intro y hy
        rcases List.mem_cons.mp hy with h | h
        · rw [h]; exact hx
        · rcases List.mem_cons.mp h with h' | h'
          · rw [h']; exact hz
          · exact hl1 y (by simp [h'])
    · obtain ⟨m1, m2, heq, hm1, hm2⟩ := ih l2 (fun y hy => hl1 y (by simp [hy])) hl2
      refine ⟨z :: m1, m2, ?_, ?_, hm2⟩
      · show insertSorted cmp x (z :: (l1' ++ l2)) = (z :: m1) ++ m2
        rw [insertSorted, if_neg hc, heq]
        rfl
      · intro y hy
        rcases List.mem_cons.mp hy with h | h
        · rw [h]; exact hz
        · exact hm1 y h

theorem stableSort_sep {α : Type} (cmp : α → α → Int) (P : α → Prop)
    (h1 : ∀ a b, P a → ¬ P b → 0 < cmp a b)
    (h2 : ∀ a b, P a → P b → cmp a b ≤ 0)
    (h3 : ∀ a b, ¬ P a → P b → cmp a b ≤ 0) :
    ∀ l : List α, ∃ m1 m2, stableSort cmp l = m1 ++ m2 ∧
      (∀ y ∈ m1, ¬ P y) ∧ (∀ y ∈ m2, P y) := by
  intro l
  induction l with
  | nil => exact ⟨[], [], rfl, by simp, by simp⟩
  | cons x xs ih =>
    obtain ⟨m1, m2, heq, hm1, hm2⟩ := ih
    have hrw : stableSort cmp (x :: xs) = insertSorted cmp x (m1 ++ m2) := by
      rw [stableSort, heq]
    rw [hrw]
    exact insertSorted_sep cmp P x h1 h2 h3 m1 m2 hm1 hm2

theorem insertSorted_all_zero {α : Type} (cmp : α → α → Int) (x : α) (l : List α)
    (h : ∀ y ∈ l, cmp x y = 0) : insertSorted cmp x l = x :: l := by
  cases l with
  | nil => rfl
  | cons y ys => rw [insertSorted, if_pos (by rw [h y (by simp)])]

theorem stableSort_all_zero {α : Type} (cmp : α → α → Int) :
    ∀ l : List α, (∀ a ∈ l, ∀ b ∈ l, cmp a b = 0) → stableSort cmp l = l := by
  intro l
  induction l with
  | nil => intro _; rfl
  | cons x xs ih =>
    intro h
    rw [stableSort, ih (fun a ha b hb => h a (by simp [ha]) b (by simp [hb]))]
    exact insertSorted_all_zero cmp x xs (fun y hy => h x (by simp) y (by simp [hy]))

theorem sortRows_na_last {α : Type} (resolve : α → String → JSVal) (key dir : String)
    (tie : List (String × String)) (rows : List α) (hkey : key ≠ ("" : String)) :
    ∃ m1 m2, sortRows rows (some ⟨key, dir⟩) resolve tie = m1 ++ m2 ∧
      (∀ r ∈ m1, valueForSort resolve r key ≠ .na) ∧
      (∀ r ∈ m2, valueForSort resolve r key = .na) := by
  have hrw : sortRows rows (some ⟨key, dir⟩) resolve tie =
      if key = ("" : String) then rows else stableSort (cmpRows resolve key dir tie) rows := rfl
  rw [hrw, if_neg hkey]
  exact stableSort_sep _ (fun r => valueForSort resolve r key = .na)
    (fun a b pa pb => by rw [cmpRows_na_left resolve key dir tie a b pa pb]; decide)
    (fun a b pa pb => by rw [cmpRows_na_both resolve key dir tie a b pa pb])
    (fun a b pa pb => by rw [cmpRows_na_right resolve key dir tie a b pa pb]; decide)
    rows

theorem sortRows_all_tied {α : Type} (resolve : α → String → JSVal) (st : SortSt)
    (tie : List (String × String)) (rows : List α)
    (h : ∀ a ∈ rows, ∀ b ∈ rows, cmpRows resolve st.key st.dir tie a b = 0) :
    sortRows rows (some st) resolve tie = rows := by
  obtain ⟨key, dir⟩ := st
  have hrw : sortRows rows (some ⟨key, dir⟩) resolve tie =
      if key = ("" : String) then rows else stableSort (cmpRows resolve key dir tie) rows := rfl
  rw [hrw]
  by_cases hk : key = ("" : String)
  · rw [if_pos hk]
  · rw [if_neg hk]
    exact stableSort_all_zero _ rows h

theorem sublist_insertSorted {α : Type} (cmp : α → α → Int) (x : α) :
    ∀ l : List α, l.Sublist (insertSorted cmp x l) := by
  intro l
  induction l with
  | nil => exact List.nil_sublist _
  | cons y ys ih =>
    show (y :: ys).Sublist (if cmp x y ≤ 0 then x :: y :: ys else y :: insertSorted cmp x ys)
    by_cases hc : cmp x y ≤ 0
    · rw [if_pos hc]
      exact List.Sublist.cons x (List.Sublist.refl _)
    · rw [if_neg hc]
      exact List.Sublist.cons₂ y ih

theorem self_mem_insertSorted {α : Type} (cmp : α → α → Int) (x : α) :
    ∀ l : List α, x ∈ insertSorted cmp x l := by
  intro l
  induction l with
  | nil => exact List.mem_singleton.mpr rfl
  | cons y ys ih =>
    show x ∈ (if cmp x y ≤ 0 then x :: y :: ys else y :: insertSorted cmp x ys)
    by_cases hc : cmp x y ≤ 0
    · rw [if_pos hc]; exact List.mem_cons_self x _
    · rw [if_neg hc]; exact List.mem_cons_of_mem y ih

theorem mem_stableSort {α : Type} (cmp : α → α → Int) (b : α) :
    ∀ l : List α, b ∈ l → b ∈ stableSort cmp l := by
  intro l
  induction l with
  | nil => intro h; exact absurd h (List.not_mem_nil b)
  | cons x xs ih =>
    intro h
    show b ∈ insertSorted cmp x (stableSort cmp xs)
    rcases List.mem_cons.mp h with h | h
    · rw [h]; exact self_mem_insertSorted cmp x _
    · exact (sublist_insertSorted cmp x _).mem (ih h)

theorem insertSorted_pair {α : Type} (cmp : α → α → Int) (x b : α) :
    ∀ l : List α, b ∈ l → cmp x b ≤ 0 → [x, b].Sublist (insertSorted cmp x l) := by
  intro l
  induction l with
  | nil => intro h _; exact absurd h (List.not_mem_nil b)
  | cons y ys ih =>
    intro hb hcb
    show [x, b].Sublist (if cmp x y ≤ 0 then x :: y :: ys else y :: insertSorted cmp x ys)
    by_cases hc : cmp x y ≤ 0
    · rw [if_pos hc]
      exact List.Sublist.cons₂ x (List.singleton_sublist.mpr hb)
    · rw [if_neg hc]
      rcases List.mem_cons.mp hb with h | h
      · rw [h] at hcb
        exact absurd hcb hc
      · exact List.Sublist.cons y (ih h hcb)

theorem stableSort_pair {α : Type} (cmp : α → α → Int) (a b : α) :
    ∀ l : List α, [a, b].Sublist l → cmp a b ≤ 0 → [a, b].Sublist (stableSort cmp l) := by
  intro l
  induction l with
  | nil => intro h _; exact absurd (h.mem (List.mem_cons_self a _)) (List.not_mem_nil a)
  | cons x xs ih =>
    intro h hab
    show [a, b].Sublist (insertSorted cmp x (stableSort cmp xs))
    cases h with
    | cons _ h' => exact (ih h' hab).trans (sublist_insertSorted cmp x _)
    | cons₂ _ h' =>
      exact insertSorted_pair cmp a b _
        (mem_stableSort cmp b xs (List.singleton_sublist.mp h')) hab

theorem sortRows_stable_pair {α : Type} (resolve : α → String → JSVal) (key dir : String)
    (tie : List (String × String)) (rows : List α) (a b : α)
    (hsub : [a, b].Sublist rows) (h0 : cmpRows resolve key dir tie a b = 0) :
    [a, b].Sublist (sortRows rows (some ⟨key, dir⟩) resolve tie) := by
  have hrw : sortRows rows (some ⟨key, dir⟩) resolve tie =
      if key = ("" : String) then rows else stableSort (cmpRows resolve key dir tie) rows := rfl
  rw [hrw]
  by_cases hk : key = ("" : String)
  · rw [if_pos hk]; exact hsub
  · rw [if_neg hk]
    exact stableSort_pair _ a b rows hsub (by rw [h0])

/-- C3: a record whose resolved sort value is missing/empty/NA sorts after
every record with a present value, for every requested direction string:
at the comparator, an NA row compares greater regardless of direction; at
the list level, the sorted output splits into the present-valued records
followed by the NA ones; stability holds pairwise: any two records on
which the primary key and the whole tie-break chain are exhausted without
a decision (the full comparator returns 0) keep their original relative
order inside an arbitrary list, and a list on which every comparison is
undecided comes back unchanged; and the spec's example `[null, 1.0, 2.0]`
sorts to `[2.0, 1.0, null]` descending and `[1.0, 2.0, null]` ascending,
while a score-tied pair keeps its original order, also when mixed among
records of other scores. -/
theorem C3_sort_na_last_and_stable :
    (∀ (α : Type) (resolve : α → String → JSVal) (key dir : String)
       (tie : List (String × String)) (a b : α),
       valueForSort resolve a key = .na → valueForSort resolve b key ≠ .na →
       cmpRows resolve key dir tie a b = 1 ∧ cmpRows resolve key dir tie b a = -1) ∧
    (∀ (α : Type) (resolve : α → String → JSVal) (key dir : String)
       (tie : List (String × String)) (rows : List α), key ≠ ("" : String) →
       ∃ m1 m2, sortRows rows (some ⟨key, dir⟩) resolve tie = m1 ++ m2 ∧
         (∀ r ∈ m1, valueForSort resolve r key ≠ .na) ∧
         (∀ r ∈ m2, valueForSort resolve r key = .na)) ∧
    (∀ (α : Type) (resolve : α → String → JSVal) (st : SortSt)
       (tie : List (String × String)) (rows : List α),
       (∀ a ∈ rows, ∀ b ∈ rows, cmpRows resolve st.key st.dir tie a b = 0) →
       sortRows rows (some st) resolve tie = rows) ∧
    (∀ (α : Type) (resolve : α → String → JSVal) (key dir : String)
       (tie : List (String × String)) (rows : List α) (a b : α),
       [a, b].Sublist rows → cmpRows resolve key dir tie a b = 0 →
       [a, b].Sublist (sortRows rows (some ⟨key, dir⟩) resolve tie)) ∧
    (sortRows [(none : Option ℚ), some 1, some 2]
        (some ⟨("score" : String), ("desc" : String)⟩) scoreResolve [] =
      [some 2, some 1, none] ∧
     sortRows [(none : Option ℚ), some 1, some 2]
        (some ⟨("score" : String), ("asc" : String)⟩) scoreResolve [] =
      [some 1, some 2, none] ∧
     sortRows [((1 : ℚ), (10 : ℚ)), ((1 : ℚ), (20 : ℚ))]
        (some ⟨("score" : String), ("desc" : String)⟩) pairResolve [] =
      [((1 : ℚ), (10 : ℚ)), ((1 : ℚ), (20 : ℚ))] ∧
     sortRows [((1 : ℚ), (10 : ℚ)), ((3 : ℚ), (0 : ℚ)), ((1 : ℚ), (20 : ℚ)), ((2 : ℚ), (5 : ℚ))]
        (some ⟨("score" : String), ("desc" : String)⟩) pairResolve [] =
      [((3 : ℚ), (0 : ℚ)), ((2 : ℚ), (5 : ℚ)), ((1 : ℚ), (10 : ℚ)), ((1 : ℚ), (20 : ℚ))]) := by
  refine ⟨?_, ?_, ?_, ?_, by with_unfolding_all decide, by with_unfolding_all decide,
    by with_unfolding_all decide, by with_unfolding_all decide⟩
  · intro α resolve key dir tie a b ha hb
    exact ⟨cmpRows_na_left resolve key dir tie a b ha hb,
           cmpRows_na_right resolve key dir tie b a hb ha⟩
  · intro α resolve key dir tie rows hkey
    exact sortRows_na_last resolve key dir tie rows hkey
  · intro α resolve st tie rows h
    exact sortRows_all_tied resolve st tie rows h
  · intro α resolve key dir tie rows a b hsub h0
    exact sortRows_stable_pair resolve key dir tie rows a b hsub h0

theorem C3_sort_na_last_and_stable_witness :
    cmpRows scoreResolve ("score" : String) ("desc" : String) [] (none : Option ℚ) (some 2) = 1 ∧
    cmpRows scoreResolve ("score" : String) ("desc" : String) [] (some 2) (none : Option ℚ) = -1 :=
  C3_sort_na_last_and_stable.1 (Option ℚ) scoreResolve ("score" : String) ("desc" : String) []
    none (some 2) (by with_unfolding_all decide) (by with_unfolding_all decide)

end TK
